import Mathlib

/-!
Shallow embedding of `autorally_core/src/StateEstimator/StateEstimator.cpp`
(AutoRally state estimator node).

The node fuses three sensor streams (GPS fixes, IMU samples, wheel-odometry
samples).  `ImuCallback` is the fast predictor: it runs on every IMU sample,
maintains a private buffer `m_imuMeasurements` plus a preintegrated delta
`m_imuPredictor`, and publishes a predicted pose anchored at the shared
optimized state.  `GpsHelper` is the slow corrector loop: it drains the
bounded queues, builds a factor batch, calls the ISAM2 backend and, on
success, replaces the shared optimized state.

Modelling conventions:
 * `double` timestamps and vector components are embedded as fixed-point
   integers (`ℤ`, timestamps in milliseconds, so the constant `0.005 s`
   becomes `5`); the claims under verification are control-flow and
   data-flow properties, not floating-point rounding properties;
 * `gtsam::Pose3` is embedded by its translation component (rotations are the
   identity); the claims only require that distinct poses stay distinct and
   that `between`/`compose` are the group operations, which the translation
   group provides;
 * the external collaborators (GTSAM preintegration/ISAM2, GeographicLib ENU
   conversion, ROS transport) are embedded by small executable stand-ins:
   the preintegrated delta is the list of `integrateMeasurement` calls made
   since the last reset, the ISAM2 solve result for a cycle is an oracle
   input of the cycle event (`Except Unit Refined`, `.error` modelling the
   indeterminant-system exception), and ENU projection is coordinate-wise
   difference from the origin;
 * each corrector-loop iteration is an atomic event of the trace: it fires
   only when every blocking pop inside it can be satisfied, and is otherwise
   a no-op (the thread is still blocked / spinning).
-/

/-- Coordinate triple standing in for `gtsam::Vector3`. -/
abbrev Vec3 : Type := ℤ × ℤ × ℤ

def vadd (a b : Vec3) : Vec3 := (a.1 + b.1, a.2.1 + b.2.1, a.2.2 + b.2.2)

def vsub (a b : Vec3) : Vec3 := (a.1 - b.1, a.2.1 - b.2.1, a.2.2 - b.2.2)

def vscale (c : ℤ) (a : Vec3) : Vec3 := (c * a.1, c * a.2.1, c * a.2.2)

/-- Translation-component embedding of `gtsam::Pose3`. -/
abbrev Pose : Type := Vec3

/-- Embedding of `Pose3::compose` on the translation component. -/
def poseCompose (p q : Pose) : Pose := vadd p q

/-- Embedding of `Pose3::between` on the translation component
(`p.between(q) = p⁻¹ ∘ q`). -/
def poseBetween (p q : Pose) : Pose := vsub q p

/-- One `sensor_msgs::Imu` message: stamp, linear acceleration, angular
velocity. -/
structure ImuMsg where
  stamp : ℤ
  linAcc : Vec3
  angVel : Vec3
deriving DecidableEq, Repr

/-- One `sensor_msgs::NavSatFix` message. -/
structure GpsMsg where
  stamp : ℤ
  lat : ℤ
  lon : ℤ
  alt : ℤ
deriving DecidableEq, Repr

/-- One `nav_msgs::Odometry` wheel-odometry message (pose embedded by its
translation component). -/
structure OdomMsg where
  stamp : ℤ
  pose : Pose
deriving DecidableEq, Repr

/-- Modelled from the spec: the repository's `BlockingQueue` container
(declared in `BlockingQueue.h`, which is not under `src/`).  Per spec §4.1 it
is a bounded FIFO with `push_non_blocking` (enqueue if capacity remains,
otherwise fail and drop), blocking `pop`, and `size`. -/
structure BQueue (α : Type) where
  cap : ℕ
  items : List α
deriving DecidableEq, Repr

/-- Modelled from the spec: `pushNonBlocking` enqueues at the back when the
depth is below capacity and reports `false` (sample dropped) otherwise. -/
def BQueue.pushNB {α : Type} (q : BQueue α) (a : α) : BQueue α × Bool :=
  if q.items.length < q.cap then ({ q with items := q.items ++ [a] }, true)
  else (q, false)

/-- ROS parameters read by the constructor that influence the embedded
behavior, plus `GpsSkip` (`m_gpsSkip`), which the constructor reads and
prints but which no other code consults. -/
structure EstConfig where
  invertx : Bool
  inverty : Bool
  invertz : Bool
  gpsSkip : Int
  fixedInitialPose : Bool
  fixedOrigin : Bool
  latOrigin : ℤ
  lonOrigin : ℤ
  altOrigin : ℤ
deriving DecidableEq, Repr

/-- Initial pose message (`imu_3dm_gx4::FilterOutput`), embedded by its bias
vector (the orientation only affects the rotation component, which the
translation embedding of `Pose3` drops). -/
abbrev InitialPose : Type := Vec3

/-- Embedding of `GetAccGyro` (lines 266–286), acceleration component:
per-axis sign inversion per the `InvertX/Y/Z` parameters. -/
def getAcc (cfg : EstConfig) (m : ImuMsg) : Vec3 :=
  ((if cfg.invertx then -m.linAcc.1 else m.linAcc.1),
   (if cfg.inverty then -m.linAcc.2.1 else m.linAcc.2.1),
   (if cfg.invertz then -m.linAcc.2.2 else m.linAcc.2.2))

/-- Embedding of `GetAccGyro`, angular-velocity component. -/
def getGyro (cfg : EstConfig) (m : ImuMsg) : Vec3 :=
  ((if cfg.invertx then -m.angVel.1 else m.angVel.1),
   (if cfg.inverty then -m.angVel.2.1 else m.angVel.2.1),
   (if cfg.invertz then -m.angVel.2.2 else m.angVel.2.2))

/-- Shared optimized-state cell (`m_optimizedState`, `m_optimizedBias`,
`m_optimizedTime` behind `m_optimizedStateMutex`).  `state` is the `NavState`
(pose, velocity); `bias` is `(accelerometer bias, gyroscope bias)`. -/
structure SharedCell where
  state : Pose × Vec3
  bias : Vec3 × Vec3
  time : ℤ
deriving DecidableEq, Repr

/-- Initial value of the shared cell: default `NavState`, zero bias,
`m_optimizedTime = 0` (line 175). -/
def initCell : SharedCell :=
  { state := ((0, 0, 0), (0, 0, 0)), bias := ((0, 0, 0), (0, 0, 0)), time := 0 }

/-- Private state of `ImuCallback`: `m_lastImuT`, `m_imuQPrevTime`, the
private measurement buffer `m_imuMeasurements`, the preintegrator
`m_imuPredictor` (embedded as the list of `integrateMeasurement (acc, gyro,
dt)` calls since the last `resetIntegration`), and `m_maxQSize`.
`ghostPrevAnchorT` is a specification-observation variable with no influence
on behavior: it records the `m_optimizedTime` snapshot seen by the previous
invocation, so that "the anchor advanced since the previous invocation" can
be stated. -/
structure ImuCbState where
  lastImuT : ℤ
  imuQPrevTime : ℤ
  buffer : List ImuMsg
  delta : List (Vec3 × Vec3 × ℤ)
  maxQSize : ℕ
  ghostPrevAnchorT : ℤ
deriving DecidableEq, Repr

def initImuCbState : ImuCbState :=
  { lastImuT := 0, imuQPrevTime := 0, buffer := [], delta := [],
    maxQSize := 0, ghostPrevAnchorT := 0 }

/-- Predicted output published on `pose` (lines 571–595): stamp, pose,
velocity and the angular-rate field of the twist. -/
structure PoseOut where
  stamp : ℤ
  pose : Pose
  vel : Vec3
  angular : Vec3
deriving DecidableEq, Repr

/-- Warnings surfaced via `ROS_WARN` in the ingestion callbacks. -/
inductive EstWarning where
  | gpsDrop
  | imuDrop
  | imuQSize (n : ℕ)
deriving DecidableEq, Repr

/-- Embedding of one step of `PreintegratedImuMeasurements::predict`
(external GTSAM collaborator): bias-corrected accelerometer integration on
the translation component; rotation and gravity are dropped with the
rotation component of the pose. -/
def integStep (biasAcc : Vec3) (pv : Pose × Vec3) (meas : Vec3 × Vec3 × ℤ) :
    Pose × Vec3 :=
  (vadd pv.1 (vscale meas.2.2 pv.2), vadd pv.2 (vscale meas.2.2 (vsub meas.1 biasAcc)))

/-- Embedding of `m_imuPredictor->predict(optimizedState, optimizedBias)`
(line 570): fold the recorded `integrateMeasurement` calls over the anchor
state, correcting each accelerometer sample by the anchor bias. -/
def predictNav (anchor : Pose × Vec3) (bias : Vec3 × Vec3)
    (ds : List (Vec3 × Vec3 × ℤ)) : Pose × Vec3 :=
  ds.foldl (integStep bias.1) anchor

/-- Embedding of the discard loop of `ImuCallback` (lines 538–544): pop
buffered measurements from the front while their stamp precedes the anchor
time, tracking `m_imuQPrevTime` (stamp of the last popped sample) and the
`newMeasurements` flag.  Returns (remaining buffer, `m_imuQPrevTime`,
`newMeasurements`). -/
def discardLoop (t : ℤ) (l : List ImuMsg) (prev : ℤ) : List ImuMsg × ℤ × Bool :=
  match l with
  | [] => ([], prev, false)
  | m :: rest =>
    if m.stamp < t then
      let r := discardLoop t rest m.stamp
      (r.1, r.2.1, true)
    else (m :: rest, prev, false)

/-- Embedding of the reintegration loop of `ImuCallback` (lines 549–559):
after `resetIntegration`, integrate every remaining buffered sample in order
with `dt = stamp − m_imuQPrevTime`.  Also returns the final
`m_imuQPrevTime` and the final value of the local `gyro` variable (which the
loop leaves untouched when the buffer is empty; the C++ then reads it
uninitialized — the model uses the incoming value). -/
def rebuildDelta (cfg : EstConfig) (prev : ℤ) (g : Vec3) (l : List ImuMsg) :
    List (Vec3 × Vec3 × ℤ) × ℤ × Vec3 :=
  match l with
  | [] => ([], prev, g)
  | m :: rest =>
    let a := getAcc cfg m
    let gy := getGyro cfg m
    let r := rebuildDelta cfg m.stamp gy rest
    ((a, gy, m.stamp - prev) :: r.1, r.2.1, r.2.2)

/-- Embedding of the prediction part of `ImuCallback` (lines 522–603), i.e.
everything after the queue push: buffer the sample, read the shared cell,
return early when `m_optimizedTime == 0`, discard stale buffered samples,
either rebuild the preintegrated delta from scratch or fold in the newest
sample, predict from the anchor and publish.  Returns the updated private
state and the published message (if any). -/
def imuCore (cfg : EstConfig) (cell : SharedCell) (st : ImuCbState)
    (m : ImuMsg) (dt : ℤ) : ImuCbState × Option PoseOut :=
  let st1 := { st with buffer := st.buffer ++ [m], ghostPrevAnchorT := cell.time }
  if cell.time = 0 then (st1, none)
  else
    let d := discardLoop cell.time st1.buffer st1.imuQPrevTime
    if d.2.2 then
      -- newMeasurements: reset the integration and reintegrate the buffer
      let r := rebuildDelta cfg d.2.1 (0, 0, 0) d.1
      let st2 := { st1 with buffer := d.1, imuQPrevTime := r.2.1, delta := r.1 }
      let nav := predictNav cell.state cell.bias st2.delta
      (st2, some { stamp := m.stamp, pose := nav.1, vel := nav.2,
                   angular := vadd r.2.2 cell.bias.2 })
    else
      -- just fold in the newest measurement
      let g := getGyro cfg m
      let st2 := { st1 with buffer := d.1, imuQPrevTime := d.2.1,
                            delta := st1.delta ++ [(getAcc cfg m, g, dt)] }
      let nav := predictNav cell.state cell.bias st2.delta
      (st2, some { stamp := m.stamp, pose := nav.1, vel := nav.2,
                   angular := vadd g cell.bias.2 })

/-- Result of one `ImuCallback` invocation. -/
structure ImuCbRes where
  st : ImuCbState
  q : BQueue ImuMsg
  out : Option PoseOut
  warn : List EstWarning
deriving DecidableEq, Repr

/-- Embedding of `ImuCallback` (lines 501–604): compute `dt`, update
`m_maxQSize` (warning when the new maximum exceeds 20), push the sample to
the optimization queue `m_ImuOptQ` (warning when the push fails), then run
the prediction path. -/
def imuCallback (cfg : EstConfig) (cell : SharedCell) (q : BQueue ImuMsg)
    (st : ImuCbState) (m : ImuMsg) : ImuCbRes :=
  let dt := if st.lastImuT = 0 then (5 : ℤ) else m.stamp - st.lastImuT
  let st1 := { st with lastImuT := m.stamp }
  let qSize := q.items.length
  let stw :=
    if qSize > st1.maxQSize then
      ({ st1 with maxQSize := qSize },
       if qSize > 20 then [EstWarning.imuQSize qSize] else [])
    else (st1, ([] : List EstWarning))
  let p := q.pushNB m
  let dropWarn : List EstWarning := if p.2 then [] else [EstWarning.imuDrop]
  let c := imuCore cfg cell stw.1 m dt
  { st := c.1, q := p.1, out := c.2, warn := stw.2 ++ dropWarn }

/-- Embedding of the GeographicLib ENU projection (`m_enu.Forward`, external
collaborator): coordinate-wise difference from the origin.  The claims only
require that the projection is a definite function of (origin, fix). -/
def enuForward (origin : Vec3) (fix : GpsMsg) : Vec3 :=
  (fix.lat - origin.1, fix.lon - origin.2.1, fix.alt - origin.2.2)

/-- State owned by the `GpsHelper` optimization thread: `m_gotFirstFix`,
`prevTime` (local of `GpsHelper`), the keys `m_biasKey`/`m_poseVelKey`,
`m_prevPose`/`m_prevVel`/`m_previousBias`, `m_lastIMU`/`m_lastImuTgps`, the
current ENU origin, and a `dead` flag modelling the thread having been
killed by an uncaught backend exception. -/
structure CorrState where
  gotFirstFix : Bool
  prevTime : ℤ
  biasKey : ℕ
  poseVelKey : ℕ
  prevPose : Pose
  prevVel : Vec3
  previousBias : Vec3 × Vec3
  lastIMU : Option ImuMsg
  lastImuTgps : ℤ
  enuOrigin : Vec3
  dead : Bool
deriving DecidableEq, Repr

/-- Constructor-time corrector state (lines 72–255): keys 0, zero biases,
origin reset only when `FixedOrigin` is configured (lines 137–138). -/
def initCorrState (cfg : EstConfig) : CorrState :=
  { gotFirstFix := false, prevTime := 0, biasKey := 0, poseVelKey := 0,
    prevPose := (0, 0, 0), prevVel := (0, 0, 0),
    previousBias := ((0, 0, 0), (0, 0, 0)),
    lastIMU := none, lastImuTgps := 0,
    enuOrigin :=
      if cfg.fixedOrigin then (cfg.latOrigin, cfg.lonOrigin, cfg.altOrigin)
      else (0, 0, 0),
    dead := false }

/-- Factors submitted to the ISAM2 backend, abstracted to their keys and
measurement payloads.  `imuFactor k1 k2 kb` stands for
`ImuFactor(X(k1), V(k1), X(k2), V(k2), B(kb))`. -/
inductive ObsFactor where
  | priorPose (k : ℕ) (p : Pose)
  | priorVel (k : ℕ) (v : Vec3)
  | priorBias (k : ℕ) (b : Vec3 × Vec3)
  | imuPgpsF (kx kg : ℕ)
  | odomBetween (k1 k2 : ℕ) (m : Pose)
  | imuFactor (k1 k2 kb : ℕ)
  | biasBetween (k1 k2 : ℕ)
  | gpsFactor (k : ℕ) (p : Vec3)
deriving DecidableEq, Repr

/-- Refined state returned by the ISAM2 backend for the new epoch
(`calculateEstimate` of pose, velocity and bias, lines 463–465): an oracle
input of each correction-cycle event, since the solver is an external
collaborator. -/
abbrev Refined : Type := Pose × Vec3 × (Vec3 × Vec3)

/-- Embedding of the latest-wins drain of the GPS queue (lines 307–313):
after popping `f`, keep popping while the queue is non-empty; the last pop
wins. -/
def drainLatest : GpsMsg → List GpsMsg → GpsMsg
  | f, [] => f
  | _, m :: rest => drainLatest m rest

/-- Embedding of the stale-odometry drain (lines 404–405): pop while the
front sample's stamp precedes `curTime`, the popped sample becoming
`lastOdom`. -/
def odomDrain (t : ℤ) (last : OdomMsg) (l : List OdomMsg) :
    OdomMsg × List OdomMsg :=
  match l with
  | [] => (last, [])
  | m :: rest =>
    if m.stamp < t then odomDrain t m rest else (last, m :: rest)

/-- Embedding of the corrector's IMU integration loop (lines 421–430):
while `m_lastIMU` precedes `curTime`, integrate it (with
`dt = stamp − m_lastImuTgps`) and pop the next sample from `m_ImuOptQ`;
`none` models the loop blocking on an empty queue.  Returns the integrated
measurements and the final `m_lastIMU`, `m_lastImuTgps` and queue
remainder. -/
def corrIntegrate (cfg : EstConfig) (t : ℤ) (last : ImuMsg) (tgps : ℤ)
    (q : List ImuMsg) :
    Option (List (Vec3 × Vec3 × ℤ) × ImuMsg × ℤ × List ImuMsg) :=
  if last.stamp < t then
    match q with
    | [] => none
    | m :: rest =>
      match corrIntegrate cfg t m last.stamp rest with
      | none => none
      | some r =>
        some ((getAcc cfg last, getGyro cfg last, last.stamp - tgps) :: r.1, r.2)
  else some ([], last, tgps, q)

/-- Embedding of the bootstrap IMU drain (lines 373–380): after popping the
first sample, keep popping while `m_lastIMU` precedes the fix stamp,
recording `m_lastImuTgps`; `none` models blocking on an empty queue. -/
def bootImuDrain (fixT : ℤ) (last : ImuMsg) (tgps : ℤ) (q : List ImuMsg) :
    Option (ImuMsg × ℤ × List ImuMsg) :=
  if last.stamp < fixT then
    match q with
    | [] => none
    | m :: rest => bootImuDrain fixT m last.stamp rest
  else some (last, tgps, q)

/-- Result of one completed `GpsHelper` loop iteration. -/
structure CycleResult where
  corr : CorrState
  gpsQ : BQueue GpsMsg
  odomQ : BQueue OdomMsg
  imuQ : BQueue ImuMsg
  factors : List ObsFactor
  cellWrite : Option SharedCell
  biasOut : Option (Vec3 × Vec3)
  epochOut : Option ℕ
  usedGps : Bool
  fixUsed : Option GpsMsg
  seededBoot : Bool
deriving DecidableEq, Repr

/-- Pops performed by one STEADY iteration before the backend call: the
stale-odom toss (lines 394–395), the two unconditional odom pops (lines
397–398), the conditional drain to the last odom before `curTime` (lines
401–405), and the IMU integration loop.  `none` models any of the blocking
pops failing to find data. -/
structure SteadyPops where
  firstOdom : OdomMsg
  odomItems : List OdomMsg
  odomTaken : Bool
  meas : List (Vec3 × Vec3 × ℤ)
  lastIMU : ImuMsg
  lastImuTgps : ℤ
  imuItems : List ImuMsg
deriving DecidableEq, Repr

def steadyPops (cfg : EstConfig) (st : CorrState) (usingGPS : Bool)
    (curTime : ℤ) (oq : List OdomMsg) (iq : List ImuMsg) : Option SteadyPops :=
  match st.lastIMU, oq.dropWhile (fun o => decide (o.stamp < st.prevTime)) with
  | some li, a :: b2 :: rest =>
    let od :=
      if usingGPS = false ∨ b2.stamp < curTime then
        ((odomDrain curTime b2 rest).2, true)
      else (rest, false)
    match corrIntegrate cfg curTime li st.lastImuTgps iq with
    | none => none
    | some r =>
      some { firstOdom := a, odomItems := od.1, odomTaken := od.2,
             meas := r.1, lastIMU := r.2.1, lastImuTgps := r.2.2.1,
             imuItems := r.2.2.2 }
  | _, _ => none

/-- Embedding of the STEADY branch of `GpsHelper` (lines 385–497).  The
factor batch: optional odometry between-factor, IMU factor, bias
between-factor, then (when a fix triggered the cycle) the GPS factor and the
IMU-to-GPS offset factor.  Note two faithful details of lines 407–417: the
source computes `betweenOdomPose.between(lastOdomPose)` and discards the
result, so the odometry factor carries `firstOdom`'s absolute pose; and both
of the factor's pose keys are `X(m_poseVelKey)`.  On a backend fault
(`.error`) the exception skips everything from line 463 on: no cell write,
no bias publication, no key increments; the thread dies (`dead`). -/
def steadyBody (cfg : EstConfig) (st : CorrState) (fix? : Option GpsMsg)
    (curTime : ℤ) (gq' : BQueue GpsMsg) (oq : BQueue OdomMsg)
    (iq : BQueue ImuMsg) (b : Except Unit Refined) : Option CycleResult :=
  (steadyPops cfg st fix?.isSome curTime oq.items iq.items).map (fun pr =>
    let factors : List ObsFactor :=
      (if pr.odomTaken then
        [ObsFactor.odomBetween st.poseVelKey st.poseVelKey pr.firstOdom.pose]
      else [])
      ++ [ObsFactor.imuFactor st.poseVelKey (st.poseVelKey + 1) st.biasKey,
          ObsFactor.biasBetween st.biasKey (st.biasKey + 1)]
      ++ (match fix? with
          | some fix =>
            [ObsFactor.gpsFactor (st.poseVelKey + 1) (enuForward st.enuOrigin fix),
             ObsFactor.imuPgpsF (st.poseVelKey + 1) (st.poseVelKey + 1)]
          | none => [])
    match b with
    | .error _ =>
      { corr := { st with lastIMU := some pr.lastIMU,
                          lastImuTgps := pr.lastImuTgps, dead := true },
        gpsQ := gq', odomQ := ⟨oq.cap, pr.odomItems⟩,
        imuQ := ⟨iq.cap, pr.imuItems⟩,
        factors := factors, cellWrite := none, biasOut := none,
        epochOut := none, usedGps := fix?.isSome, fixUsed := fix?,
        seededBoot := false }
    | .ok r =>
      { corr := { st with prevPose := r.1, prevVel := r.2.1,
                          previousBias := r.2.2,
                          biasKey := st.biasKey + 1,
                          poseVelKey := st.poseVelKey + 1,
                          prevTime := curTime,
                          lastIMU := some pr.lastIMU,
                          lastImuTgps := pr.lastImuTgps },
        gpsQ := gq', odomQ := ⟨oq.cap, pr.odomItems⟩,
        imuQ := ⟨iq.cap, pr.imuItems⟩,
        factors := factors,
        cellWrite := some { state := (r.1, r.2.1), bias := r.2.2, time := curTime },
        biasOut := some r.2.2, epochOut := some (st.poseVelKey + 1),
        usedGps := fix?.isSome, fixUsed := fix?, seededBoot := false })

/-- Embedding of the BOOTSTRAP branch of `GpsHelper` (lines 323–384):
set `m_gotFirstFix`, establish the ENU origin (reset to the fix, or project
the fix into the configured fixed origin), seed the epoch-0 priors, submit
them to the backend, then drain the IMU queue up to the fix stamp.  On a
backend fault the drain and `prevTime` update are skipped and the thread
dies; the mutations made before the `update` call (lines 327–368) stand. -/
def bootstrapBody (cfg : EstConfig) (ip : InitialPose) (st : CorrState)
    (fix : GpsMsg) (gq' : BQueue GpsMsg) (oq : BQueue OdomMsg)
    (iq : BQueue ImuMsg) (b : Except Unit Refined) : Option CycleResult :=
  let origin :=
    if cfg.fixedOrigin then st.enuOrigin else (fix.lat, fix.lon, fix.alt)
  let x0 : Pose :=
    if cfg.fixedOrigin then enuForward st.enuOrigin fix else (0, 0, 0)
  let biasP : Vec3 × Vec3 := ((0, 0, 0), (ip.1, -ip.2.1, -ip.2.2))
  let factors : List ObsFactor :=
    [ObsFactor.priorPose 0 x0, ObsFactor.priorVel 0 (0, 0, 0),
     ObsFactor.priorBias 0 biasP, ObsFactor.imuPgpsF 0 0]
  let stPre := { st with gotFirstFix := true, enuOrigin := origin,
                         prevPose := x0, previousBias := biasP }
  match b with
  | .error _ =>
    some { corr := { stPre with dead := true }, gpsQ := gq', odomQ := oq,
           imuQ := iq, factors := factors, cellWrite := none, biasOut := none,
           epochOut := none, usedGps := true, fixUsed := some fix,
           seededBoot := false }
  | .ok _ =>
    match iq.items with
    | [] => none
    | m0 :: rest =>
      match bootImuDrain fix.stamp m0 (m0.stamp - 5) rest with
      | none => none
      | some d =>
        some { corr := { stPre with lastIMU := some d.1,
                                    lastImuTgps := d.2.1,
                                    prevTime := fix.stamp },
               gpsQ := gq', odomQ := oq, imuQ := ⟨iq.cap, d.2.2⟩,
               factors := factors, cellWrite := none, biasOut := none,
               epochOut := none, usedGps := true, fixUsed := some fix,
               seededBoot := true }

/-- Embedding of one iteration of the `GpsHelper` loop (lines 295–498).
Trigger selection (lines 303–321): when the first fix is still pending or
the GPS queue is non-empty, pop (blocking) and drain to the newest queued
fix; otherwise, when the odom queue is non-empty, use its back sample's
stamp as the trigger time; otherwise the iteration does nothing.  `none`
models an iteration that cannot complete because a blocking pop has no
data. -/
def gpsHelperCycle (cfg : EstConfig) (ip : InitialPose) (st : CorrState)
    (gq : BQueue GpsMsg) (oq : BQueue OdomMsg) (iq : BQueue ImuMsg)
    (b : Except Unit Refined) : Option CycleResult :=
  if st.gotFirstFix = false ∨ 0 < gq.items.length then
    match gq.items with
    | [] => none
    | f0 :: rest =>
      if st.gotFirstFix then
        steadyBody cfg st (some (drainLatest f0 rest)) (drainLatest f0 rest).stamp
          ⟨gq.cap, []⟩ oq iq b
      else
        bootstrapBody cfg ip st (drainLatest f0 rest) ⟨gq.cap, []⟩ oq iq b
  else if 0 < oq.items.length then
    match oq.items.getLast? with
    | some lo => steadyBody cfg st none lo.stamp gq oq iq b
    | none => none
  else none

/-- Whole-node state driven by the event trace. -/
structure SysState where
  ip : InitialPose
  corr : CorrState
  icb : ImuCbState
  gpsQ : BQueue GpsMsg
  imuQ : BQueue ImuMsg
  odomQ : BQueue OdomMsg
  cell : SharedCell
  posePub : List PoseOut
  biasPub : List (Vec3 × Vec3)
  warnings : List EstWarning
  factorLog : List ObsFactor
  epochLog : List ℕ
  bootSeed : Option ℕ
deriving DecidableEq, Repr

/-- State right after the constructor ran: empty queues with the capacities
of lines 82–84 (`m_gpsOptQ(40)`, `m_ImuOptQ(400)`, `m_odomOptQ(100)`). -/
def initSysState (cfg : EstConfig) (ip : InitialPose) : SysState :=
  { ip := ip, corr := initCorrState cfg, icb := initImuCbState,
    gpsQ := ⟨40, []⟩, imuQ := ⟨400, []⟩, odomQ := ⟨100, []⟩,
    cell := initCell, posePub := [], biasPub := [], warnings := [],
    factorLog := [], epochLog := [], bootSeed := none }

/-- Events of a run: sensor callbacks firing in their producer contexts, and
one atomic `GpsHelper` loop iteration (with the backend outcome it would
observe). -/
inductive SysEvent where
  | gps (m : GpsMsg)
  | imu (m : ImuMsg)
  | odom (m : OdomMsg)
  | cycle (b : Except Unit Refined)

/-- One event of the run.  `GpsCallback` (lines 260–264) warns on a failed
push; `WheelOdomCallback` (lines 606–610) ignores the push result — its
warning line is commented out in the source; `ImuCallback` is `imuCallback`;
a cycle event applies `gpsHelperCycle` when the optimizer thread is alive
and the iteration can complete. -/
def stepEv (cfg : EstConfig) (s : SysState) : SysEvent → SysState
  | .gps m =>
    let p := s.gpsQ.pushNB m
    { s with gpsQ := p.1,
             warnings := s.warnings ++ if p.2 then [] else [EstWarning.gpsDrop] }
  | .odom m =>
    let p := s.odomQ.pushNB m
    { s with odomQ := p.1 }
  | .imu m =>
    let r := imuCallback cfg s.cell s.imuQ s.icb m
    { s with imuQ := r.q, icb := r.st,
             posePub := s.posePub ++ r.out.toList,
             warnings := s.warnings ++ r.warn }
  | .cycle b =>
    if s.corr.dead then s
    else
      match gpsHelperCycle cfg s.ip s.corr s.gpsQ s.odomQ s.imuQ b with
      | none => s
      | some res =>
        { s with corr := res.corr, gpsQ := res.gpsQ, odomQ := res.odomQ,
                 imuQ := res.imuQ,
                 cell := res.cellWrite.getD s.cell,
                 biasPub := s.biasPub ++ res.biasOut.toList,
                 factorLog := s.factorLog ++ res.factors,
                 epochLog := s.epochLog ++ res.epochOut.toList,
                 bootSeed := if res.seededBoot then some 0 else s.bootSeed }

/-- Run of the node over an event trace, starting from the constructor
state. -/
def runSystem (cfg : EstConfig) (ip : InitialPose) (evs : List SysEvent) :
    SysState :=
  evs.foldl (stepEv cfg) (initSysState cfg ip)

/-- Embedding of the initial-pose wait loop (lines 178–183):
`while (!ip) { ROS_WARN(...); ip = waitForMessage(..., Duration(15)); }`.
Each list element is the outcome of one bounded (15 s) `waitForMessage`
call, `none` meaning the bound expired without a message.  The C++ loop
retries forever; the model folds a finite prefix of attempt outcomes, and a
`none` result means the loop is still waiting after all of them. -/
def waitForInitialPose : List (Option InitialPose) → Option InitialPose
  | [] => none
  | none :: rest => waitForInitialPose rest
  | some p :: _ => some p

/-- Embedding of the constructor's initial-pose acquisition (lines 177–197):
with `FixedInitialPose` the configured pose (zero bias) is used without
waiting; otherwise the node startup completes exactly when the wait loop
obtains a pose. -/
def estimatorInit (cfg : EstConfig) (attempts : List (Option InitialPose)) :
    Option SysState :=
  if cfg.fixedInitialPose then some (initSysState cfg (0, 0, 0))
  else (waitForInitialPose attempts).map (initSysState cfg)

/-- Default configuration (all parameter defaults of lines 88–135 that the
embedding retains). -/
def cfg0 : EstConfig :=
  { invertx := false, inverty := false, invertz := false, gpsSkip := 5,
    fixedInitialPose := false, fixedOrigin := false,
    latOrigin := 0, lonOrigin := 0, altOrigin := 0 }

def ip0 : InitialPose := (0, 0, 0)

def g0 : GpsMsg := { stamp := 2000, lat := 10, lon := 20, alt := 0 }

def i1 : ImuMsg := { stamp := 3000, linAcc := (1, 0, 0), angVel := (0, 0, 0) }

def o1 : OdomMsg := { stamp := 2200, pose := (1, 1, 1) }

def o2 : OdomMsg := { stamp := 2400, pose := (5, 7, 9) }

def g1 : GpsMsg := { stamp := 2500, lat := 10, lon := 20, alt := 1 }

/-- Backend oracle value for the first steady correction: refined pose
`(100,0,0)`, zero velocity, zero accelerometer bias, gyroscope bias
`(5,0,0)`. -/
def r1 : Refined := ((100, 0, 0), (0, 0, 0), ((0, 0, 0), (5, 0, 0)))

def i5 : ImuMsg := { stamp := 4000, linAcc := (2, 0, 0), angVel := (3, 0, 0) }

/-- Trace: a fix, one IMU sample, the bootstrap cycle, two odometry samples,
a second fix, and the first steady correction cycle. -/
def trace7 : List SysEvent :=
  [SysEvent.gps g0, SysEvent.imu i1, SysEvent.cycle (Except.ok r1),
   SysEvent.odom o1, SysEvent.odom o2, SysEvent.gps g1,
   SysEvent.cycle (Except.ok r1)]

/-- `trace7` followed by one more IMU sample, arriving after the first
correction landed. -/
def trace2 : List SysEvent := trace7 ++ [SysEvent.imu i5]



/-- Claim-side definition, written from the spec's words for comparison with
the source embedding (claim C2): when a new correction has landed, discard
the buffered samples whose stamp precedes the anchor time and rebuild the
preintegrated delta by integrating the remaining buffered samples in
order. -/
def specRebuildDelta (cfg : EstConfig) (st : ImuCbState) (cell : SharedCell)
    (m : ImuMsg) : List (Vec3 × Vec3 × ℤ) :=
  let buf := st.buffer ++ [m]
  let dropped := buf.takeWhile (fun x => decide (x.stamp < cell.time))
  let kept := buf.dropWhile (fun x => decide (x.stamp < cell.time))
  (rebuildDelta cfg
    (((dropped.getLast?).map (fun x => x.stamp)).getD st.imuQPrevTime)
    (0, 0, 0) kept).1

/-- C2, counterexample.  Run `trace7`: the bootstrap fix has stamp 2000, the
IMU sample `i1` (stamp 3000) is buffered while the anchor is still unset,
and the first correction lands with anchor time 2500.  At the next IMU
sample `i5` the anchor has advanced since the previous invocation (0 →
2500), yet no buffered sample precedes 2500, so the code folds only `i5`
into the existing (empty) delta; the rebuild mandated by the claim would
also integrate the still-buffered `i1`. -/
theorem c2_counterexample :
    (runSystem cfg0 ip0 trace7).icb.ghostPrevAnchorT
        < (runSystem cfg0 ip0 trace7).cell.time
    ∧ (runSystem cfg0 ip0 trace2).icb.delta
        ≠ specRebuildDelta cfg0 (runSystem cfg0 ip0 trace7).icb
            (runSystem cfg0 ip0 trace7).cell i5 := by decide

def isOdomF : ObsFactor → Bool
  | ObsFactor.odomBetween _ _ _ => true
  | _ => false

/-- C4.  In the steady cycle of `trace7` (previous epoch 0, new epoch 1) the
bracketing odometry pair is `o1`, `o2`, whose relative pose is `(4,6,8)`;
but the factor the code emits carries `o1`'s absolute pose `(1,1,1)` (line
413 discards the result of `between`) and ties `X(0)` to `X(0)` instead of
`X(0)` to `X(1)`. -/
theorem c4_odom_between_discarded :
    (runSystem cfg0 ip0 trace7).factorLog.filter isOdomF
      = [ObsFactor.odomBetween 0 0 o1.pose]
    ∧ poseBetween o1.pose o2.pose = (4, 6, 8)
    ∧ ObsFactor.odomBetween 0 0 o1.pose
        ≠ ObsFactor.odomBetween 0 1 (poseBetween o1.pose o2.pose) := by decide

/-- C5.  The angular rate published for `i5` is the raw measured rate plus
the anchor's gyroscope-bias estimate (lines 588–590 use `+`), not the raw
rate with the bias removed: raw `(3,0,0)`, bias `(5,0,0)`, published
`(8,0,0)`, bias-removed `(-2,0,0)`. -/
theorem c5_gyro_bias_added_not_removed :
    (runSystem cfg0 ip0 trace2).posePub.map (fun o => o.angular)
      = [vadd (getGyro cfg0 i5) (runSystem cfg0 ip0 trace2).cell.bias.2]
    ∧ vadd (getGyro cfg0 i5) (runSystem cfg0 ip0 trace2).cell.bias.2 = (8, 0, 0)
    ∧ vsub (getGyro cfg0 i5) (runSystem cfg0 ip0 trace2).cell.bias.2 = (-2, 0, 0)
    ∧ ((8 : ℤ), (0 : ℤ), (0 : ℤ)) ≠ ((-2 : ℤ), (0 : ℤ), (0 : ℤ)) := by decide

/-- Trace of 101 wheel-odometry messages against the queue capacity of 100
(`m_odomOptQ(100)`, line 84). -/
def odomFlood : List SysEvent :=
  (List.range 101).map (fun i => SysEvent.odom { stamp := (i : ℤ), pose := (0, 0, 0) })

set_option maxRecDepth 8000 in
/-- C6, counterexample.  The 101st wheel-odometry push finds the queue full:
the sample is dropped (depth stays 100, the last queued sample is the 100th
one), but no warning is surfaced — `WheelOdomCallback` (lines 606–610)
ignores the push result and its warning line is commented out. -/
theorem c6_counterexample :
    (runSystem cfg0 ip0 odomFlood).warnings = []
    ∧ (runSystem cfg0 ip0 odomFlood).odomQ.items.length = 100
    ∧ (runSystem cfg0 ip0 odomFlood).odomQ.items.getLast?
        = some { stamp := 99, pose := (0, 0, 0) } := by decide

/-- C8, counterexample.  The first bounded (15 s) wait for the initial pose
expires with no message, the second attempt delivers one: startup proceeds
normally with that pose instead of failing fatally, so expiry of the bound
is not a fatal startup condition. -/
theorem c8_counterexample :
    cfg0.fixedInitialPose = false
    ∧ waitForInitialPose [none, some ((1 : ℤ), 2, 3)] = some ((1 : ℤ), 2, 3)
    ∧ estimatorInit cfg0 [none, some ((1 : ℤ), 2, 3)]
        = some (initSysState cfg0 ((1 : ℤ), 2, 3)) := by decide

theorem waitForInitialPose_isSome (l : List (Option InitialPose)) :
    (waitForInitialPose l).isSome = l.any (fun a => a.isSome) := by
  induction l with
  | nil => rfl
  | cons a rest ih => cases a <;> simp [waitForInitialPose, ih]

theorem waitForInitialPose_replicate_none (n : ℕ) :
    waitForInitialPose (List.replicate n none) = none := by
  induction n with
  | zero => rfl
  | succ n ih => simpa [List.replicate, waitForInitialPose] using ih

/-- C8, amended.  Each individual wait is bounded, but on expiry the loop
warns and retries indefinitely: startup completes exactly when some attempt
delivers the initial pose, and if no attempt ever does, the node never
starts (it produces no state, but no fatal failure occurs either). -/
theorem c8_wait_retries_indefinitely :
    (∀ attempts : List (Option InitialPose),
        (estimatorInit cfg0 attempts).isSome
          = attempts.any (fun a => a.isSome))
    ∧ ∀ n : ℕ, estimatorInit cfg0 (List.replicate n none) = none := by
  constructor
  · intro attempts
    have hfix : cfg0.fixedInitialPose = false := rfl
    rw [estimatorInit, hfix]
    simp [waitForInitialPose_isSome]
  · intro n
    have hfix : cfg0.fixedInitialPose = false := rfl
    rw [estimatorInit, hfix]
    simp [waitForInitialPose_replicate_none]

theorem drainLatest_append (f : GpsMsg) :
    ∀ (l : List GpsMsg) (g : GpsMsg), drainLatest g (l ++ [f]) = f := by
  intro l
  induction l with
  | nil => intro g; rfl
  | cons a rest ih => intro g; simpa [drainLatest] using ih a

theorem steadyBody_fields (cfg : EstConfig) (st : CorrState)
    (fix? : Option GpsMsg) (curTime : ℤ) (gq' : BQueue GpsMsg)
    (oq : BQueue OdomMsg) (iq : BQueue ImuMsg) (b : Except Unit Refined)
    (res : CycleResult) (h : steadyBody cfg st fix? curTime gq' oq iq b = some res) :
    res.usedGps = fix?.isSome ∧ res.fixUsed = fix? ∧ res.gpsQ = gq' := by
  rw [steadyBody.eq_def, Option.map_eq_some'] at h
  obtain ⟨pr, -, h2⟩ := h
  subst h2
  cases b <;> exact ⟨rfl, rfl, rfl⟩

/-- C1.  In a STEADY cycle (first fix already obtained) with a non-empty
GPS queue, the iteration behaves exactly as if only the newest queued fix
were present (older fixes are unused), the absolute trigger is selected
(`usedGps`), the fix used is the newest queued one, and the GPS queue is
left drained — regardless of any pending odometry samples in `oq`. -/
theorem c1_absolute_trigger_latest_wins (cfg : EstConfig) (ip : InitialPose)
    (st : CorrState) (oq : BQueue OdomMsg) (iq : BQueue ImuMsg)
    (b : Except Unit Refined) (gcap : ℕ) (l : List GpsMsg) (f : GpsMsg)
    (h1 : st.gotFirstFix = true) :
    gpsHelperCycle cfg ip st ⟨gcap, l ++ [f]⟩ oq iq b
      = gpsHelperCycle cfg ip st ⟨gcap, [f]⟩ oq iq b
    ∧ ∀ res : CycleResult,
        gpsHelperCycle cfg ip st ⟨gcap, l ++ [f]⟩ oq iq b = some res →
        res.usedGps = true ∧ res.fixUsed = some f ∧ res.gpsQ.items = [] := by
  have hred : gpsHelperCycle cfg ip st ⟨gcap, l ++ [f]⟩ oq iq b
      = steadyBody cfg st (some f) f.stamp ⟨gcap, []⟩ oq iq b := by
    cases l with
    | nil => simp [gpsHelperCycle, h1, drainLatest]
    | cons a rest => simp [gpsHelperCycle, h1, drainLatest_append]
  have hred1 : gpsHelperCycle cfg ip st ⟨gcap, [f]⟩ oq iq b
      = steadyBody cfg st (some f) f.stamp ⟨gcap, []⟩ oq iq b := by
    simp [gpsHelperCycle, h1, drainLatest]
  refine ⟨hred.trans hred1.symm, ?_⟩
  intro res hres
  rw [hred] at hres
  obtain ⟨hu, hf, hq⟩ := steadyBody_fields _ _ _ _ _ _ _ _ _ hres
  refine ⟨by simpa using hu, hf, by rw [hq]⟩

/-- Corrector state right after the bootstrap cycle of `trace7`'s prefix. -/
def stW : CorrState :=
  (runSystem cfg0 ip0
    [SysEvent.gps g0, SysEvent.imu i1, SysEvent.cycle (Except.ok r1)]).corr

def gW2 : GpsMsg := { stamp := 3000, lat := 11, lon := 21, alt := 0 }

theorem c1_witness :
    (gpsHelperCycle cfg0 ip0 stW ⟨40, [g1, gW2]⟩ ⟨100, [o1, o2]⟩ ⟨400, []⟩
        (Except.ok r1)
      = gpsHelperCycle cfg0 ip0 stW ⟨40, [gW2]⟩ ⟨100, [o1, o2]⟩ ⟨400, []⟩
        (Except.ok r1))
    ∧ (gpsHelperCycle cfg0 ip0 stW ⟨40, [g1, gW2]⟩ ⟨100, [o1, o2]⟩ ⟨400, []⟩
        (Except.ok r1)).map (fun r => (r.usedGps, r.fixUsed, r.gpsQ.items))
      = some (true, some gW2, []) := by
  have h := c1_absolute_trigger_latest_wins cfg0 ip0 stW ⟨100, [o1, o2]⟩
    ⟨400, []⟩ (Except.ok r1) 40 [g1] gW2 (by decide)
  exact ⟨h.1, by decide⟩

theorem range'_append_last (n : ℕ) :
    List.range' 1 n ++ [n + 1] = List.range' 1 (n + 1) := by
  rw [List.range'_concat]
  simp [Nat.add_comm]

theorem bootstrapBody_shape (cfg : EstConfig) (ip : InitialPose)
    (st : CorrState) (fix : GpsMsg) (gq' : BQueue GpsMsg) (oq : BQueue OdomMsg)
    (iq : BQueue ImuMsg) (b : Except Unit Refined) (res : CycleResult)
    (h : bootstrapBody cfg ip st fix gq' oq iq b = some res) :
    res.epochOut = none ∧ res.cellWrite = none
    ∧ res.corr.poseVelKey = st.poseVelKey := by
  rw [bootstrapBody.eq_def] at h
  cases b with
  | error u =>
    obtain rfl := Option.some.inj h
    exact ⟨rfl, rfl, rfl⟩
  | ok r =>
    cases hiq : iq.items with
    | nil => rw [hiq] at h; exact Option.noConfusion h
    | cons m0 rest =>
      rw [hiq] at h
      dsimp only at h
      cases hbd : bootImuDrain fix.stamp m0 (m0.stamp - 5) rest with
      | none => rw [hbd] at h; exact Option.noConfusion h
      | some d =>
        rw [hbd] at h
        obtain rfl := Option.some.inj h
        exact ⟨rfl, rfl, rfl⟩

theorem steadyBody_shape (cfg : EstConfig) (st : CorrState)
    (fix? : Option GpsMsg) (curTime : ℤ) (gq' : BQueue GpsMsg)
    (oq : BQueue OdomMsg) (iq : BQueue ImuMsg) (b : Except Unit Refined)
    (res : CycleResult) (h : steadyBody cfg st fix? curTime gq' oq iq b = some res) :
    (res.epochOut = none ∧ res.cellWrite = none
      ∧ res.corr.poseVelKey = st.poseVelKey)
    ∨ (res.epochOut = some (st.poseVelKey + 1)
      ∧ (∃ c, res.cellWrite = some c)
      ∧ res.corr.poseVelKey = st.poseVelKey + 1) := by
  rw [steadyBody.eq_def, Option.map_eq_some'] at h
  obtain ⟨pr, -, h2⟩ := h
  subst h2
  cases b with
  | error u => exact Or.inl ⟨rfl, rfl, rfl⟩
  | ok r => exact Or.inr ⟨rfl, ⟨_, rfl⟩, rfl⟩

theorem gpsHelperCycle_shape (cfg : EstConfig) (ip : InitialPose)
    (st : CorrState) (gq : BQueue GpsMsg) (oq : BQueue OdomMsg)
    (iq : BQueue ImuMsg) (b : Except Unit Refined) (res : CycleResult)
    (h : gpsHelperCycle cfg ip st gq oq iq b = some res) :
    (res.epochOut = none ∧ res.cellWrite = none
      ∧ res.corr.poseVelKey = st.poseVelKey)
    ∨ (res.epochOut = some (st.poseVelKey + 1)
      ∧ (∃ c, res.cellWrite = some c)
      ∧ res.corr.poseVelKey = st.poseVelKey + 1) := by
  rw [gpsHelperCycle.eq_def] at h
  split at h
  · split at h
    · exact Option.noConfusion h
    · split at h
      · exact steadyBody_shape _ _ _ _ _ _ _ _ _ h
      · exact Or.inl (bootstrapBody_shape _ _ _ _ _ _ _ _ _ h)
  · split at h
    · split at h
      · exact steadyBody_shape _ _ _ _ _ _ _ _ _ h
      · exact Option.noConfusion h
    · exact Option.noConfusion h

theorem gpsHelperCycle_error_cellWrite (cfg : EstConfig) (ip : InitialPose)
    (st : CorrState) (gq : BQueue GpsMsg) (oq : BQueue OdomMsg)
    (iq : BQueue ImuMsg) (u : Unit) (res : CycleResult)
    (h : gpsHelperCycle cfg ip st gq oq iq (Except.error u) = some res) :
    res.cellWrite = none := by
  rw [gpsHelperCycle.eq_def] at h
  split at h
  · split at h
    · exact Option.noConfusion h
    · split at h
      · rw [steadyBody.eq_def, Option.map_eq_some'] at h
        obtain ⟨pr, -, h2⟩ := h
        subst h2; rfl
      · rw [bootstrapBody.eq_def] at h
        obtain rfl := Option.some.inj h
        rfl
  · split at h
    · split at h
      · rw [steadyBody.eq_def, Option.map_eq_some'] at h
        obtain ⟨pr, -, h2⟩ := h
        subst h2; rfl
      · exact Option.noConfusion h
    · exact Option.noConfusion h

/-- C7.  A correction-cycle event on which the backend faults leaves the
shared cell untouched (the exception propagates before the cell write of
lines 470–475), leaves the predictor's private state untouched, and hence
the predictor's next invocation computes exactly what it would have computed
had the faulting cycle never run: it stays anchored to the prior epoch's
corrected state. -/
theorem c7_backend_fault_keeps_anchor (cfg : EstConfig) (s : SysState)
    (u : Unit) (m : ImuMsg) (dt : ℤ) :
    (stepEv cfg s (SysEvent.cycle (Except.error u))).cell = s.cell
    ∧ (stepEv cfg s (SysEvent.cycle (Except.error u))).icb = s.icb
    ∧ imuCore cfg (stepEv cfg s (SysEvent.cycle (Except.error u))).cell
        (stepEv cfg s (SysEvent.cycle (Except.error u))).icb m dt
      = imuCore cfg s.cell s.icb m dt := by
  have hc : (stepEv cfg s (SysEvent.cycle (Except.error u))).cell = s.cell := by
    simp only [stepEv]
    split
    · rfl
    · cases hg : gpsHelperCycle cfg s.ip s.corr s.gpsQ s.odomQ s.imuQ
        (Except.error u) with
      | none => rfl
      | some res =>
        simp [gpsHelperCycle_error_cellWrite _ _ _ _ _ _ _ _ hg]
  have hi : (stepEv cfg s (SysEvent.cycle (Except.error u))).icb = s.icb := by
    simp only [stepEv]
    split
    · rfl
    · cases hg : gpsHelperCycle cfg s.ip s.corr s.gpsQ s.odomQ s.imuQ
        (Except.error u) with
      | none => rfl
      | some res => rfl
  exact ⟨hc, hi, by rw [hc, hi]⟩

/-- Preservation helper: an invariant closed under `stepEv` holds after any
fold. -/
theorem foldl_inv {P : SysState → Prop} (cfg : EstConfig)
    (hstep : ∀ s e, P s → P (stepEv cfg s e)) :
    ∀ (evs : List SysEvent) (s : SysState), P s →
      P (List.foldl (stepEv cfg) s evs)
  | [], _, h => h
  | e :: evs, s, h => foldl_inv cfg hstep evs _ (hstep s e h)

/-- Invariant: the epochs written so far are exactly `1, 2, …,
m_poseVelKey`, and the bootstrap seed (when it happened) is epoch 0. -/
def epochInv (s : SysState) : Prop :=
  s.epochLog = List.range' 1 s.corr.poseVelKey
  ∧ (s.bootSeed = none ∨ s.bootSeed = some 0)

theorem stepEv_epochInv (cfg : EstConfig) (s : SysState) (e : SysEvent)
    (h : epochInv s) : epochInv (stepEv cfg s e) := by
  cases e with
  | gps m => exact h
  | odom m => exact h
  | imu m => exact h
  | cycle b =>
    simp only [stepEv]
    split
    · exact h
    · cases hg : gpsHelperCycle cfg s.ip s.corr s.gpsQ s.odomQ s.imuQ b with
      | none => exact h
      | some res =>
        rcases gpsHelperCycle_shape _ _ _ _ _ _ _ _ hg with
          ⟨he, -, hk⟩ | ⟨he, -, hk⟩
        · refine ⟨?_, ?_⟩
          · show s.epochLog ++ res.epochOut.toList
              = List.range' 1 res.corr.poseVelKey
            rw [he, hk]
            simpa using h.1
          · show (if res.seededBoot then some 0 else s.bootSeed) = none
              ∨ (if res.seededBoot then some 0 else s.bootSeed) = some 0
            split
            · exact Or.inr rfl
            · exact h.2
        · refine ⟨?_, ?_⟩
          · show s.epochLog ++ res.epochOut.toList
              = List.range' 1 res.corr.poseVelKey
            rw [he, hk, h.1]
            simpa using range'_append_last s.corr.poseVelKey
          · show (if res.seededBoot then some 0 else s.bootSeed) = none
              ∨ (if res.seededBoot then some 0 else s.bootSeed) = some 0
            split
            · exact Or.inr rfl
            · exact h.2

theorem runSystem_epochInv (cfg : EstConfig) (ip : InitialPose)
    (evs : List SysEvent) : epochInv (runSystem cfg ip evs) :=
  foldl_inv cfg (fun s e h => stepEv_epochInv cfg s e h) evs _ ⟨rfl, Or.inl rfl⟩

/-- C3.  In any run, the sequence of epoch keys written to the shared cell
is exactly `1, 2, …, n` (each completed correction writes an epoch exactly
one greater than the previous one, with no gaps and no repeats), and the
bootstrap — whenever it has run — seeded exactly epoch 0. -/
theorem c3_epochs_consecutive_from_zero (cfg : EstConfig) (ip : InitialPose)
    (evs : List SysEvent) :
    (runSystem cfg ip evs).epochLog
      = List.range' 1 (runSystem cfg ip evs).epochLog.length
    ∧ ((runSystem cfg ip evs).bootSeed = none
        ∨ (runSystem cfg ip evs).bootSeed = some 0) := by
  have h := runSystem_epochInv cfg ip evs
  refine ⟨?_, h.2⟩
  rw [h.1, List.length_range']

theorem imuCallback_out_none (cfg : EstConfig) (cell : SharedCell)
    (q : BQueue ImuMsg) (st : ImuCbState) (m : ImuMsg) (h : cell.time = 0) :
    (imuCallback cfg cell q st m).out = none := by
  simp [imuCallback, imuCore, h]

/-- Invariant: while no correction has ever been written, the shared cell
still holds its constructor value and nothing has been published. -/
def noCorrInv (s : SysState) : Prop :=
  s.epochLog = [] → s.cell = initCell ∧ s.posePub = []

theorem stepEv_noCorrInv (cfg : EstConfig) (s : SysState) (e : SysEvent)
    (h : noCorrInv s) : noCorrInv (stepEv cfg s e) := by
  cases e with
  | gps m => exact h
  | odom m => exact h
  | imu m =>
    intro he
    have hc := h he
    refine ⟨hc.1, ?_⟩
    show s.posePub ++ (imuCallback cfg s.cell s.imuQ s.icb m).out.toList = []
    rw [imuCallback_out_none cfg s.cell s.imuQ s.icb m (by rw [hc.1]; rfl), hc.2]
    rfl
  | cycle b =>
    simp only [stepEv]
    split
    · exact h
    · cases hg : gpsHelperCycle cfg s.ip s.corr s.gpsQ s.odomQ s.imuQ b with
      | none => exact h
      | some res =>
        intro he
        have hsplit := List.append_eq_nil.mp he
        have hnone : res.epochOut = none := by
          cases hres : res.epochOut with
          | none => rfl
          | some v =>
            rw [hres] at hsplit
            exact absurd hsplit.2 (by simp)
        rcases gpsHelperCycle_shape _ _ _ _ _ _ _ _ hg with
          ⟨-, hcw, -⟩ | ⟨hesome, -, -⟩
        · have hc := h hsplit.1
          refine ⟨?_, hc.2⟩
          show res.cellWrite.getD s.cell = initCell
          rw [hcw]
          exact hc.1
        · rw [hesome] at hnone
          exact Option.noConfusion hnone

theorem runSystem_noCorrInv (cfg : EstConfig) (ip : InitialPose)
    (evs : List SysEvent) : noCorrInv (runSystem cfg ip evs) :=
  foldl_inv cfg (fun s e h => stepEv_noCorrInv cfg s e h) evs _
    (fun _ => ⟨rfl, rfl⟩)

/-- C9.  An IMU sample processed while the anchor is unset
(`m_optimizedTime == 0`, line 533) produces no published prediction; and in
any run in which no correction has been written to the shared cell, the
predicted-output stream is empty — the first predicted output can only come
after the first correction lands. -/
theorem c9_no_output_before_first_correction :
    (∀ (cfg : EstConfig) (cell : SharedCell) (q : BQueue ImuMsg)
        (st : ImuCbState) (m : ImuMsg),
        cell.time = 0 → (imuCallback cfg cell q st m).out = none)
    ∧ (∀ (cfg : EstConfig) (ip : InitialPose) (evs : List SysEvent),
        (runSystem cfg ip evs).epochLog = [] →
          (runSystem cfg ip evs).posePub = []) :=
  ⟨fun cfg cell q st m h => imuCallback_out_none cfg cell q st m h,
   fun cfg ip evs he => ((runSystem_noCorrInv cfg ip evs) he).2⟩

theorem c9_witness :
    (imuCallback cfg0 initCell ⟨400, []⟩ initImuCbState i1).out = none
    ∧ (runSystem cfg0 ip0 [SysEvent.imu i1]).posePub = [] := by
  have h := c9_no_output_before_first_correction
  exact ⟨h.1 cfg0 initCell ⟨400, []⟩ initImuCbState i1 rfl,
         h.2 cfg0 ip0 [SysEvent.imu i1] (by decide)⟩

theorem odomDrain_length (t : ℤ) :
    ∀ (l : List OdomMsg) (last : OdomMsg),
      (odomDrain t last l).2.length ≤ l.length := by
  intro l
  induction l with
  | nil => intro last; simp [odomDrain]
  | cons m rest ih =>
    intro last
    by_cases hm : m.stamp < t
    · simp only [odomDrain, if_pos hm]
      exact le_trans (ih m) (Nat.le_succ _)
    · simp [odomDrain, hm]

theorem corrIntegrate_length (cfg : EstConfig) (t : ℤ) :
    ∀ (q : List ImuMsg) (last : ImuMsg) (tg : ℤ)
      (r : List (Vec3 × Vec3 × ℤ) × ImuMsg × ℤ × List ImuMsg),
      corrIntegrate cfg t last tg q = some r → r.2.2.2.length ≤ q.length := by
  intro q
  induction q with
  | nil =>
    intro last tg r h
    rw [corrIntegrate.eq_def] at h
    split at h
    · exact Option.noConfusion h
    · obtain rfl := Option.some.inj h
      exact Nat.le_refl _
  | cons m rest ih =>
    intro last tg r h
    rw [corrIntegrate.eq_def] at h
    split at h
    · dsimp only at h
      cases hr : corrIntegrate cfg t m last.stamp rest with
      | none => rw [hr] at h; exact Option.noConfusion h
      | some r2 =>
        rw [hr] at h
        obtain rfl := Option.some.inj h
        exact le_trans (ih m last.stamp r2 hr) (Nat.le_succ _)
    · obtain rfl := Option.some.inj h
      exact Nat.le_refl _

theorem bootImuDrain_length (ft : ℤ) :
    ∀ (q : List ImuMsg) (last : ImuMsg) (tg : ℤ)
      (r : ImuMsg × ℤ × List ImuMsg),
      bootImuDrain ft last tg q = some r → r.2.2.length ≤ q.length := by
  intro q
  induction q with
  | nil =>
    intro last tg r h
    rw [bootImuDrain.eq_def] at h
    split at h
    · exact Option.noConfusion h
    · obtain rfl := Option.some.inj h
      exact Nat.le_refl _
  | cons m rest ih =>
    intro last tg r h
    rw [bootImuDrain.eq_def] at h
    split at h
    · dsimp only at h
      exact le_trans (ih m last.stamp r h) (Nat.le_succ _)
    · obtain rfl := Option.some.inj h
      exact Nat.le_refl _

theorem steadyPops_lengths (cfg : EstConfig) (st : CorrState) (ug : Bool)
    (t : ℤ) (oq : List OdomMsg) (iq : List ImuMsg) (pr : SteadyPops)
    (h : steadyPops cfg st ug t oq iq = some pr) :
    pr.odomItems.length ≤ oq.length ∧ pr.imuItems.length ≤ iq.length := by
  have hdw : (oq.dropWhile (fun o => decide (o.stamp < st.prevTime))).length
      ≤ oq.length := List.Sublist.length_le (List.dropWhile_sublist _)
  rw [steadyPops.eq_def] at h
  cases hli : st.lastIMU with
  | none =>
    rw [hli] at h
    cases hd : oq.dropWhile (fun o => decide (o.stamp < st.prevTime)) with
    | nil => rw [hd] at h; exact Option.noConfusion h
    | cons a r1 =>
      rw [hd] at h
      cases r1 with
      | nil => exact Option.noConfusion h
      | cons b2 rest => exact Option.noConfusion h
  | some li =>
    rw [hli] at h
    cases hd : oq.dropWhile (fun o => decide (o.stamp < st.prevTime)) with
    | nil => rw [hd] at h; exact Option.noConfusion h
    | cons a r1 =>
      rw [hd] at h
      cases r1 with
      | nil => exact Option.noConfusion h
      | cons b2 rest =>
        dsimp only at h
        cases hc : corrIntegrate cfg t li st.lastImuTgps iq with
        | none => rw [hc] at h; exact Option.noConfusion h
        | some r =>
          rw [hc] at h
          obtain rfl := Option.some.inj h
          rw [hd] at hdw
          simp only [List.length_cons] at hdw
          have hod := odomDrain_length t rest b2
          constructor
          · show (if ug = false ∨ b2.stamp < t then ((odomDrain t b2 rest).2, true)
                else (rest, false)).1.length ≤ oq.length
            by_cases hb : ug = false ∨ b2.stamp < t
            · simp only [if_pos hb]
              omega
            · simp only [if_neg hb]
              omega
          · exact corrIntegrate_length cfg t iq li st.lastImuTgps r hc

theorem steadyBody_qlen (cfg : EstConfig) (st : CorrState) (fix? : Option GpsMsg)
    (t : ℤ) (gq' : BQueue GpsMsg) (oq : BQueue OdomMsg) (iq : BQueue ImuMsg)
    (b : Except Unit Refined) (res : CycleResult)
    (h : steadyBody cfg st fix? t gq' oq iq b = some res) :
    res.gpsQ = gq'
    ∧ res.odomQ.cap = oq.cap ∧ res.odomQ.items.length ≤ oq.items.length
    ∧ res.imuQ.cap = iq.cap ∧ res.imuQ.items.length ≤ iq.items.length := by
  rw [steadyBody.eq_def, Option.map_eq_some'] at h
  obtain ⟨pr, hpr, h2⟩ := h
  subst h2
  have hl := steadyPops_lengths _ _ _ _ _ _ _ hpr
  cases b with
  | error u => exact ⟨rfl, rfl, hl.1, rfl, hl.2⟩
  | ok r => exact ⟨rfl, rfl, hl.1, rfl, hl.2⟩

theorem bootstrapBody_qlen (cfg : EstConfig) (ip : InitialPose)
    (st : CorrState) (fix : GpsMsg) (gq' : BQueue GpsMsg) (oq : BQueue OdomMsg)
    (iq : BQueue ImuMsg) (b : Except Unit Refined) (res : CycleResult)
    (h : bootstrapBody cfg ip st fix gq' oq iq b = some res) :
    res.gpsQ = gq' ∧ res.odomQ = oq
    ∧ res.imuQ.cap = iq.cap ∧ res.imuQ.items.length ≤ iq.items.length := by
  rw [bootstrapBody.eq_def] at h
  cases b with
  | error u =>
    obtain rfl := Option.some.inj h
    exact ⟨rfl, rfl, rfl, Nat.le_refl _⟩
  | ok r =>
    cases hiq : iq.items with
    | nil => rw [hiq] at h; exact Option.noConfusion h
    | cons m0 rest =>
      rw [hiq] at h
      dsimp only at h
      cases hbd : bootImuDrain fix.stamp m0 (m0.stamp - 5) rest with
      | none => rw [hbd] at h; exact Option.noConfusion h
      | some d =>
        rw [hbd] at h
        obtain rfl := Option.some.inj h
        refine ⟨rfl, rfl, rfl, ?_⟩
        have hlen := bootImuDrain_length fix.stamp rest m0 (m0.stamp - 5) d hbd
        show d.2.2.length ≤ (m0 :: rest).length
        simp only [List.length_cons]
        omega

theorem gpsHelperCycle_qlen (cfg : EstConfig) (ip : InitialPose)
    (st : CorrState) (gq : BQueue GpsMsg) (oq : BQueue OdomMsg)
    (iq : BQueue ImuMsg) (b : Except Unit Refined) (res : CycleResult)
    (h : gpsHelperCycle cfg ip st gq oq iq b = some res) :
    res.gpsQ.cap = gq.cap ∧ res.gpsQ.items.length ≤ gq.items.length
    ∧ res.odomQ.cap = oq.cap ∧ res.odomQ.items.length ≤ oq.items.length
    ∧ res.imuQ.cap = iq.cap ∧ res.imuQ.items.length ≤ iq.items.length := by
  rw [gpsHelperCycle.eq_def] at h
  split at h
  · split at h
    · exact Option.noConfusion h
    · split at h
      · obtain ⟨hg, ho1, ho2, hi1, hi2⟩ := steadyBody_qlen _ _ _ _ _ _ _ _ _ h
        rw [hg]
        exact ⟨rfl, Nat.zero_le _, ho1, ho2, hi1, hi2⟩
      · obtain ⟨hg, ho, hi1, hi2⟩ := bootstrapBody_qlen _ _ _ _ _ _ _ _ _ h
        rw [hg, ho]
        exact ⟨rfl, Nat.zero_le _, rfl, Nat.le_refl _, hi1, hi2⟩
  · split at h
    · split at h
      · obtain ⟨hg, ho1, ho2, hi1, hi2⟩ := steadyBody_qlen _ _ _ _ _ _ _ _ _ h
        rw [hg]
        exact ⟨rfl, Nat.le_refl _, ho1, ho2, hi1, hi2⟩
      · exact Option.noConfusion h
    · exact Option.noConfusion h

theorem pushNB_bound {α : Type} (q : BQueue α) (a : α)
    (h : q.items.length ≤ q.cap) :
    (q.pushNB a).1.cap = q.cap ∧ (q.pushNB a).1.items.length ≤ q.cap := by
  unfold BQueue.pushNB
  split
  · refine ⟨rfl, ?_⟩
    simpa using ‹q.items.length < q.cap›
  · exact ⟨rfl, h⟩

/-- Invariant: no queue's depth ever exceeds its capacity. -/
def qDepthInv (s : SysState) : Prop :=
  s.gpsQ.items.length ≤ s.gpsQ.cap ∧ s.imuQ.items.length ≤ s.imuQ.cap
  ∧ s.odomQ.items.length ≤ s.odomQ.cap

theorem stepEv_qDepthInv (cfg : EstConfig) (s : SysState) (e : SysEvent)
    (h : qDepthInv s) : qDepthInv (stepEv cfg s e) := by
  obtain ⟨h1, h2, h3⟩ := h
  cases e with
  | gps m =>
    refine ⟨?_, h2, h3⟩
    show (s.gpsQ.pushNB m).1.items.length ≤ (s.gpsQ.pushNB m).1.cap
    rw [(pushNB_bound s.gpsQ m h1).1]
    exact (pushNB_bound s.gpsQ m h1).2
  | odom m =>
    refine ⟨h1, h2, ?_⟩
    show (s.odomQ.pushNB m).1.items.length ≤ (s.odomQ.pushNB m).1.cap
    rw [(pushNB_bound s.odomQ m h3).1]
    exact (pushNB_bound s.odomQ m h3).2
  | imu m =>
    refine ⟨h1, ?_, h3⟩
    show (s.imuQ.pushNB m).1.items.length ≤ (s.imuQ.pushNB m).1.cap
    rw [(pushNB_bound s.imuQ m h2).1]
    exact (pushNB_bound s.imuQ m h2).2
  | cycle b =>
    simp only [stepEv]
    split
    · exact ⟨h1, h2, h3⟩
    · cases hg : gpsHelperCycle cfg s.ip s.corr s.gpsQ s.odomQ s.imuQ b with
      | none => exact ⟨h1, h2, h3⟩
      | some res =>
        obtain ⟨a1, a2, a3, a4, a5, a6⟩ :=
          gpsHelperCycle_qlen _ _ _ _ _ _ _ _ hg
        refine ⟨?_, ?_, ?_⟩
        · show res.gpsQ.items.length ≤ res.gpsQ.cap
          rw [a1]; exact le_trans a2 h1
        · show res.imuQ.items.length ≤ res.imuQ.cap
          rw [a5]; exact le_trans a6 h2
        · show res.odomQ.items.length ≤ res.odomQ.cap
          rw [a3]; exact le_trans a4 h3

theorem runSystem_qDepthInv (cfg : EstConfig) (ip : InitialPose)
    (evs : List SysEvent) : qDepthInv (runSystem cfg ip evs) :=
  foldl_inv cfg (fun s e h => stepEv_qDepthInv cfg s e h) evs _
    ⟨Nat.zero_le _, Nat.zero_le _, Nat.zero_le _⟩

theorem imuCallback_drop (cfg : EstConfig) (cell : SharedCell)
    (q : BQueue ImuMsg) (st : ImuCbState) (m : ImuMsg)
    (h : ¬ q.items.length < q.cap) :
    (imuCallback cfg cell q st m).q = q
    ∧ EstWarning.imuDrop ∈ (imuCallback cfg cell q st m).warn := by
  have hp : q.pushNB m = (q, false) := by
    unfold BQueue.pushNB; rw [if_neg h]
  constructor
  · show (q.pushNB m).1 = q
    rw [hp]
  · show EstWarning.imuDrop ∈
      _ ++ (if (q.pushNB m).2 then [] else [EstWarning.imuDrop])
    rw [hp]
    simp

/-- C6 (amended form).  Pushing into a full queue fails without blocking and
drops the sample for all three streams; the GPS and IMU callbacks surface a
warning for the dropped sample, the wheel-odometry callback does not; and no
queue's depth ever exceeds its configured capacity during any run. -/
theorem c6_overflow_drop_policy :
    (∀ (q : BQueue GpsMsg) (m : GpsMsg),
        ¬ q.items.length < q.cap → q.pushNB m = (q, false))
    ∧ (∀ (cfg : EstConfig) (s : SysState) (m : GpsMsg),
        ¬ s.gpsQ.items.length < s.gpsQ.cap →
          (stepEv cfg s (SysEvent.gps m)).gpsQ = s.gpsQ
          ∧ (stepEv cfg s (SysEvent.gps m)).warnings
              = s.warnings ++ [EstWarning.gpsDrop])
    ∧ (∀ (cfg : EstConfig) (s : SysState) (m : ImuMsg),
        ¬ s.imuQ.items.length < s.imuQ.cap →
          (stepEv cfg s (SysEvent.imu m)).imuQ = s.imuQ
          ∧ EstWarning.imuDrop ∈ (stepEv cfg s (SysEvent.imu m)).warnings)
    ∧ (∀ (cfg : EstConfig) (s : SysState) (m : OdomMsg),
        ¬ s.odomQ.items.length < s.odomQ.cap →
          (stepEv cfg s (SysEvent.odom m)).odomQ = s.odomQ
          ∧ (stepEv cfg s (SysEvent.odom m)).warnings = s.warnings)
    ∧ (∀ (cfg : EstConfig) (ip : InitialPose) (evs : List SysEvent),
        qDepthInv (runSystem cfg ip evs)) := by
  refine ⟨?_, ?_, ?_, ?_, fun cfg ip evs => runSystem_qDepthInv cfg ip evs⟩
  · intro q m h
    unfold BQueue.pushNB
    rw [if_neg h]
  · intro cfg s m h
    have hp : s.gpsQ.pushNB m = (s.gpsQ, false) := by
      unfold BQueue.pushNB; rw [if_neg h]
    constructor
    · show (s.gpsQ.pushNB m).1 = s.gpsQ
      rw [hp]
    · show s.warnings
          ++ (if (s.gpsQ.pushNB m).2 then [] else [EstWarning.gpsDrop])
        = s.warnings ++ [EstWarning.gpsDrop]
      rw [hp]
      rfl
  · intro cfg s m h
    have hi := imuCallback_drop cfg s.cell s.imuQ s.icb m h
    exact ⟨hi.1, by
      show EstWarning.imuDrop ∈
        s.warnings ++ (imuCallback cfg s.cell s.imuQ s.icb m).warn
      simp [hi.2]⟩
  · intro cfg s m h
    have hp : s.odomQ.pushNB m = (s.odomQ, false) := by
      unfold BQueue.pushNB; rw [if_neg h]
    constructor
    · show (s.odomQ.pushNB m).1 = s.odomQ
      rw [hp]
    · rfl

/-- Concrete state with every queue full (capacity 1, one element each). -/
def sFull : SysState :=
  { initSysState cfg0 ip0 with
      gpsQ := ⟨1, [g0]⟩, imuQ := ⟨1, [i1]⟩, odomQ := ⟨1, [o1]⟩ }

theorem c6_overflow_drop_policy_witness :
    (stepEv cfg0 sFull (SysEvent.gps g1)).gpsQ = sFull.gpsQ
    ∧ (stepEv cfg0 sFull (SysEvent.gps g1)).warnings
        = sFull.warnings ++ [EstWarning.gpsDrop]
    ∧ EstWarning.imuDrop ∈ (stepEv cfg0 sFull (SysEvent.imu i5)).warnings
    ∧ (stepEv cfg0 sFull (SysEvent.odom o2)).warnings = sFull.warnings
    ∧ BQueue.pushNB ⟨1, [g0]⟩ g1 = (⟨1, [g0]⟩, false) := by
  have h := c6_overflow_drop_policy
  exact ⟨(h.2.1 cfg0 sFull g1 (by decide)).1, (h.2.1 cfg0 sFull g1 (by decide)).2,
         (h.2.2.1 cfg0 sFull i5 (by decide)).2,
         (h.2.2.2.1 cfg0 sFull o2 (by decide)).2,
         h.1 ⟨1, [g0]⟩ g1 (by decide)⟩

theorem discardLoop_eq (t : ℤ) :
    ∀ (l : List ImuMsg) (prev : ℤ),
      discardLoop t l prev
        = (l.dropWhile (fun x => decide (x.stamp < t)),
           (((l.takeWhile (fun x => decide (x.stamp < t))).getLast?).map
               (fun x => x.stamp)).getD prev,
           !(l.takeWhile (fun x => decide (x.stamp < t))).isEmpty) := by
  intro l
  induction l with
  | nil => intro prev; rfl
  | cons m rest ih =>
    intro prev
    by_cases hm : m.stamp < t
    · have hdec : decide (m.stamp < t) = true := decide_eq_true hm
      simp only [discardLoop, if_pos hm, List.dropWhile_cons, List.takeWhile_cons,
        hdec, if_true, ih m.stamp]
      cases htw : rest.takeWhile (fun x => decide (x.stamp < t)) with
      | nil => simp
      | cons x xs =>
        obtain ⟨y, hy⟩ := Option.isSome_iff_exists.mp
          (List.getLast?_isSome.mpr (List.cons_ne_nil x xs))
        simp [hy]
    · have hdec : decide (m.stamp < t) = false := decide_eq_false hm
      simp [discardLoop, if_neg hm, List.dropWhile_cons, List.takeWhile_cons, hdec]

/-- C2 (amended form).  When the anchor is set, one `ImuCallback` invocation
keeps exactly the buffered samples from the first one at-or-after the anchor
time onward; the preintegrated delta is rebuilt from scratch over those
remaining samples precisely when at least one buffered sample preceded the
anchor time (the code's proxy for "a new correction has landed since the
previous invocation"); otherwise — including when the anchor advanced but no
buffered sample precedes its new timestamp — only the newest sample is
folded into the existing delta; and the published prediction is composed
from the shared cell's anchor state and bias. -/
theorem c2_rebuild_on_discard_only (cfg : EstConfig) (cell : SharedCell)
    (st : ImuCbState) (m : ImuMsg) (dt : ℤ) (h : cell.time ≠ 0) :
    ((imuCore cfg cell st m dt).1.buffer
        = (st.buffer ++ [m]).dropWhile (fun x => decide (x.stamp < cell.time)))
    ∧ ((st.buffer ++ [m]).takeWhile (fun x => decide (x.stamp < cell.time)) = [] →
        (imuCore cfg cell st m dt).1.delta
          = st.delta ++ [(getAcc cfg m, getGyro cfg m, dt)])
    ∧ ((st.buffer ++ [m]).takeWhile (fun x => decide (x.stamp < cell.time)) ≠ [] →
        (imuCore cfg cell st m dt).1.delta = specRebuildDelta cfg st cell m)
    ∧ (imuCore cfg cell st m dt).2.map (fun o => (o.stamp, o.pose, o.vel))
        = some (m.stamp,
            predictNav cell.state cell.bias (imuCore cfg cell st m dt).1.delta) := by
  have hd := discardLoop_eq cell.time (st.buffer ++ [m]) st.imuQPrevTime
  refine ⟨?_, ?_, ?_, ?_⟩
  · simp only [imuCore, if_neg h, hd]
    split <;> rfl
  · intro htw
    simp only [imuCore, if_neg h, hd, htw, List.isEmpty_nil, Bool.not_true,
      Bool.false_eq_true, if_false]
  · intro htw
    obtain ⟨x, xs, hxx⟩ := List.exists_cons_of_ne_nil htw
    simp only [imuCore, if_neg h, hd, hxx, List.isEmpty_cons, Bool.not_false,
      if_true]
    simp only [specRebuildDelta, hxx]
  · simp only [imuCore, if_neg h, hd]
    split <;> rfl

theorem c2_rebuild_witness :
    (imuCore cfg0 (runSystem cfg0 ip0 trace7).cell
        (runSystem cfg0 ip0 trace7).icb i5 1000).1.buffer
      = ((runSystem cfg0 ip0 trace7).icb.buffer ++ [i5]).dropWhile
          (fun x => decide (x.stamp < (runSystem cfg0 ip0 trace7).cell.time)) :=
  (c2_rebuild_on_discard_only cfg0 (runSystem cfg0 ip0 trace7).cell
    (runSystem cfg0 ip0 trace7).icb i5 1000 (by decide)).1


theorem getAcc_gsk (cfg : EstConfig) (k : Int) (m : ImuMsg) :
    getAcc { cfg with gpsSkip := k } m = getAcc cfg m := rfl

theorem getGyro_gsk (cfg : EstConfig) (k : Int) (m : ImuMsg) :
    getGyro { cfg with gpsSkip := k } m = getGyro cfg m := rfl

theorem rebuildDelta_gsk (cfg : EstConfig) (k : Int) :
    ∀ (l : List ImuMsg) (p : ℤ) (g : Vec3),
      rebuildDelta { cfg with gpsSkip := k } p g l = rebuildDelta cfg p g l := by
  intro l
  induction l with
  | nil => intro p g; rfl
  | cons m rest ih =>
    intro p g
    simp only [rebuildDelta, ih, getAcc_gsk, getGyro_gsk]

theorem corrIntegrate_gsk (cfg : EstConfig) (k : Int) (t : ℤ) :
    ∀ (q : List ImuMsg) (last : ImuMsg) (tg : ℤ),
      corrIntegrate { cfg with gpsSkip := k } t last tg q
        = corrIntegrate cfg t last tg q := by
  intro q
  induction q with
  | nil =>
    intro last tg
    rw [corrIntegrate.eq_def, corrIntegrate.eq_def]
  | cons m rest ih =>
    intro last tg
    rw [corrIntegrate.eq_def]
    conv_rhs => rw [corrIntegrate.eq_def]
    by_cases hl : last.stamp < t
    · rw [if_pos hl, if_pos hl]
      dsimp only
      rw [ih m last.stamp, getAcc_gsk, getGyro_gsk]
    · rw [if_neg hl, if_neg hl]

theorem steadyPops_gsk (cfg : EstConfig) (k : Int) (st : CorrState) (ug : Bool)
    (t : ℤ) (oq : List OdomMsg) (iq : List ImuMsg) :
    steadyPops { cfg with gpsSkip := k } st ug t oq iq
      = steadyPops cfg st ug t oq iq := by
  rw [steadyPops.eq_def]
  conv_rhs => rw [steadyPops.eq_def]
  simp only [corrIntegrate_gsk]

theorem bootstrapBody_gsk (cfg : EstConfig) (k : Int) (ip : InitialPose)
    (st : CorrState) (fix : GpsMsg) (gq : BQueue GpsMsg) (oq : BQueue OdomMsg)
    (iq : BQueue ImuMsg) (b : Except Unit Refined) :
    bootstrapBody { cfg with gpsSkip := k } ip st fix gq oq iq b
      = bootstrapBody cfg ip st fix gq oq iq b := rfl

theorem steadyBody_gsk (cfg : EstConfig) (k : Int) (st : CorrState)
    (fx : Option GpsMsg) (t : ℤ) (gq : BQueue GpsMsg) (oq : BQueue OdomMsg)
    (iq : BQueue ImuMsg) (b : Except Unit Refined) :
    steadyBody { cfg with gpsSkip := k } st fx t gq oq iq b
      = steadyBody cfg st fx t gq oq iq b := by
  rw [steadyBody.eq_def]
  conv_rhs => rw [steadyBody.eq_def]
  rw [steadyPops_gsk]

theorem gpsHelperCycle_gsk (cfg : EstConfig) (k : Int) (ip : InitialPose)
    (st : CorrState) (gq : BQueue GpsMsg) (oq : BQueue OdomMsg)
    (iq : BQueue ImuMsg) (b : Except Unit Refined) :
    gpsHelperCycle { cfg with gpsSkip := k } ip st gq oq iq b
      = gpsHelperCycle cfg ip st gq oq iq b := by
  rw [gpsHelperCycle.eq_def]
  conv_rhs => rw [gpsHelperCycle.eq_def]
  simp only [steadyBody_gsk, bootstrapBody_gsk]

theorem imuCore_gsk (cfg : EstConfig) (k : Int) (cell : SharedCell)
    (st : ImuCbState) (m : ImuMsg) (dt : ℤ) :
    imuCore { cfg with gpsSkip := k } cell st m dt = imuCore cfg cell st m dt := by
  simp only [imuCore, rebuildDelta_gsk, getAcc_gsk, getGyro_gsk]

theorem imuCallback_gsk (cfg : EstConfig) (k : Int) (cell : SharedCell)
    (q : BQueue ImuMsg) (st : ImuCbState) (m : ImuMsg) :
    imuCallback { cfg with gpsSkip := k } cell q st m
      = imuCallback cfg cell q st m := by
  simp only [imuCallback, imuCore_gsk]

theorem stepEv_gsk (cfg : EstConfig) (k : Int) (s : SysState) (e : SysEvent) :
    stepEv { cfg with gpsSkip := k } s e = stepEv cfg s e := by
  cases e with
  | gps m => rfl
  | odom m => rfl
  | imu m => simp only [stepEv, imuCallback_gsk]
  | cycle b => simp only [stepEv, gpsHelperCycle_gsk]

theorem foldl_stepEv_gsk (cfg : EstConfig) (k : Int) :
    ∀ (evs : List SysEvent) (s : SysState),
      List.foldl (stepEv { cfg with gpsSkip := k }) s evs
        = List.foldl (stepEv cfg) s evs := by
  intro evs
  induction evs with
  | nil => intro s; rfl
  | cons e rest ih =>
    intro s
    rw [List.foldl_cons, List.foldl_cons, stepEv_gsk, ih]

theorem initSysState_gsk (cfg : EstConfig) (k : Int) (ip : InitialPose) :
    initSysState { cfg with gpsSkip := k } ip = initSysState cfg ip := rfl

/-- C10.  The `GpsSkip` parameter is read and printed by the constructor
(lines 107, 160) but consulted nowhere else: two runs differing only in
`gpsSkip` produce identical system states — in particular identical
corrections, predicted outputs and published bias values — on every event
trace. -/
theorem c10_gpsSkip_has_no_effect (cfg : EstConfig) (k : Int)
    (ip : InitialPose) (evs : List SysEvent) :
    runSystem { cfg with gpsSkip := k } ip evs = runSystem cfg ip evs := by
  rw [runSystem, runSystem, foldl_stepEv_gsk, initSysState_gsk]
